import Mathlib

/-!
Verification of the job-search engine's fusion, filtering, scoring and
query-parsing logic, shallowly embedded from the Python sources
(`app/services/search_service.py`, `app/repositories/scylla_repo.py`,
`app/utils/query_parser.py`, `app/models/job_models.py`).

Conventions of the embedding:
* Python `Optional` values are `Option`; Python truthiness (`if x:`) is made
  explicit — `None`, `0`, `""` and `[]` are falsy.
* UUIDs are modelled as `Nat`, floats as `ℚ` (the score arithmetic uses the
  exact decimal constants of the source), datetimes as `Nat`.
* Python dicts that preserve insertion order are association lists with
  update-in-place semantics (`dictSet`).
* Python's `sorted` (a stable sort) is modelled by `List.insertionSort`,
  which is likewise stable for the given relation.
-/

namespace JobSearch

/-- `small.lower() in big` — Python substring test (both already lower-cased
by the callers below where the source lower-cases). -/
def containsSub (big small : String) : Bool :=
  big.toList.tails.any (fun t => small.toList.isPrefixOf t)

/-- Python `str.lower()` (`String.toLower`, written with structural recursion
over the characters so that concrete instances reduce). -/
def lowerStr (s : String) : String :=
  String.mk (s.toList.map Char.toLower)

/-- Python truthiness of an optional integer: `None` and `0` are falsy. -/
def truthyInt (o : Option Int) : Bool :=
  match o with
  | none => false
  | some n => n != 0

/-- Python truthiness of an optional string: `None` and `""` are falsy. -/
def truthyStr (o : Option String) : Bool :=
  match o with
  | none => false
  | some s => s != ""

/-- Python truthiness of an optional list (e.g. a nullable `set<text>`
column): `None` and the empty collection are falsy. -/
def truthyOptList (o : Option (List String)) : Bool :=
  match o with
  | none => false
  | some l => !l.isEmpty

/-- `ParsedFilters` (pydantic model in `app/models/job_models.py`). -/
structure ParsedFilters where
  intent : Option String := some "job_search"
  keywords : List String := []
  location : Option String := none
  geo_radius_km : Option Int := none
  salary_min : Option Int := none
  salary_max : Option Int := none
  employment_type : Option String := none
  experience_level : Option String := none
  skills : List String := []
  category : Option String := none
  status : Option String := some "active"
  detected_language : Option String := none
  original_query : Option String := none
  deriving Repr, DecidableEq

/-- `Job` (pydantic model in `app/models/job_models.py`); `title` is the only
required field besides `job_id`. -/
structure Job where
  job_id : Nat
  provider_id : Option Nat := none
  title : String
  description : Option String := none
  category : Option String := none
  city : Option String := none
  country : Option String := none
  latitude : Option ℚ := none
  longitude : Option ℚ := none
  employment_type : Option String := none
  salary_min : Option Int := none
  salary_max : Option Int := none
  currency : Option String := none
  experience_level : Option String := none
  skills : List String := []
  status : Option String := none
  is_verified : Option Bool := none
  date_posted : Option Nat := none
  expiry_date : Option Nat := none
  match_score : Option ℚ := none
  deriving Repr, DecidableEq

/-- A row of the Scylla `jobs` table as returned by `row._asdict()`: every
column is present as a key but its value may be NULL (`none`); `skills` is a
nullable `set<text>`. -/
structure ScyllaJob where
  job_id : Nat
  provider_id : Option Nat := none
  title : Option String := none
  description : Option String := none
  category : Option String := none
  city : Option String := none
  country : Option String := none
  latitude : Option ℚ := none
  longitude : Option ℚ := none
  employment_type : Option String := none
  salary_min : Option Int := none
  salary_max : Option Int := none
  currency : Option String := none
  experience_level : Option String := none
  skills : Option (List String) := none
  status : Option String := none
  is_verified : Option Bool := none
  date_posted : Option Nat := none
  expiry_date : Option Nat := none
  deriving Repr, DecidableEq

/-- One hit returned by the vector store (`vector_repo.search_jobs`): job id,
similarity score and the few payload fields the vector index carries. -/
structure VectorResult where
  job_id : Nat
  match_score : ℚ
  title_snippet : Option String := none
  category : Option String := none
  skills : List String := []
  deriving Repr, DecidableEq

/-- `_create_job_from_data` (`search_service.py`): builds a `Job` from a
Scylla row plus a match score.  Pydantic rejects a NULL `title` (the field is
required), the surrounding `try/except` then returns `None`; `skills` falls
back to `[]` when falsy. -/
def createJobFromData (jd : ScyllaJob) (score : ℚ) : Option Job :=
  match jd.title with
  | none => none
  | some t =>
    some { job_id := jd.job_id
           provider_id := jd.provider_id
           title := t
           description := jd.description
           category := jd.category
           city := jd.city
           country := jd.country
           latitude := jd.latitude
           longitude := jd.longitude
           employment_type := jd.employment_type
           salary_min := jd.salary_min
           salary_max := jd.salary_max
           currency := jd.currency
           experience_level := jd.experience_level
           skills := if truthyOptList jd.skills then jd.skills.getD [] else []
           status := jd.status
           is_verified := jd.is_verified
           date_posted := jd.date_posted
           expiry_date := jd.expiry_date
           match_score := some score }

/-- `_create_job_from_vector_result` (`search_service.py`). -/
def createJobFromVectorResult (v : VectorResult) : Option Job :=
  some { job_id := v.job_id
         title := v.title_snippet.getD ""
         category := v.category
         skills := v.skills
         match_score := some v.match_score }

/-- First early return of `_passes_filters`:
`if filters.salary_min and job.salary_min and job.salary_min < filters.salary_min`. -/
def rejectSalaryMin (f j : Option Int) : Bool :=
  match f, j with
  | some fv, some jv => fv != 0 && jv != 0 && jv < fv
  | _, _ => false

/-- Second early return of `_passes_filters`:
`if filters.salary_max and job.salary_max and job.salary_max > filters.salary_max`. -/
def rejectSalaryMax (f j : Option Int) : Bool :=
  match f, j with
  | some fv, some jv => fv != 0 && jv != 0 && jv > fv
  | _, _ => false

/-- Skill check of `_passes_filters`: when both skill lists are truthy,
reject when the case-insensitive set intersection is empty. -/
def rejectSkills (fskills jskills : List String) : Bool :=
  !fskills.isEmpty && !jskills.isEmpty &&
    !((jskills.map lowerStr).any
        (fun s => (fskills.map lowerStr).contains s))

/-- Common shape of the location / employment-type / experience-level /
category checks of `_passes_filters`: when both strings are truthy, reject on
case-insensitive inequality. -/
def rejectCaseStr (f j : Option String) : Bool :=
  match f, j with
  | some fv, some jv => fv != "" && jv != "" && lowerStr fv != lowerStr jv
  | _, _ => false

/-- `_passes_filters` (`search_service.py`): the chain of early `return False`
checks, written as a conjunction. -/
def passesFilters (job : Job) (filters : ParsedFilters) : Bool :=
  !(rejectSalaryMin filters.salary_min job.salary_min) &&
  !(rejectSalaryMax filters.salary_max job.salary_max) &&
  !(rejectSkills filters.skills job.skills) &&
  !(rejectCaseStr filters.location job.city) &&
  !(rejectCaseStr filters.employment_type job.employment_type) &&
  !(rejectCaseStr filters.experience_level job.experience_level) &&
  !(rejectCaseStr filters.category job.category)

/-- The keyword accumulator of `_calculate_text_similarity_score`:
`+2` per keyword found in the lower-cased title, else `+1` if found in the
lower-cased description. -/
def keywordMatches (title description : String) (keywords : List String) : Nat :=
  keywords.foldl
    (fun acc kw =>
      if containsSub title (lowerStr kw) then acc + 2
      else if containsSub description (lowerStr kw) then acc + 1
      else acc)
    0

/-- Size of the case-insensitive skill-set intersection used by
`_calculate_text_similarity_score` (Python builds two lower-cased sets and
intersects them, so duplicates collapse). -/
def skillOverlap (jskills fskills : List String) : Nat :=
  (((jskills.map lowerStr).dedup).filter
      (fun s => (fskills.map lowerStr).contains s)).length

/-- `_calculate_text_similarity_score` (`search_service.py`): heuristic
relevance score for Scylla-only candidates.  The decimal constants of the
source (`0.5`, `0.05`, `0.3`, `0.1`, `0.2`, `1.0`) appear as exact
rationals. -/
def calculateTextSimilarityScore (jd : ScyllaJob) (filters : ParsedFilters) : ℚ :=
  let title := lowerStr (jd.title.getD "")
  let description := lowerStr (jd.description.getD "")
  let km : ℚ := (keywordMatches title description filters.keywords : ℚ)
  let score : ℚ := 1/2 + min (km * (1/20)) (3/10)
  let score : ℚ :=
    if !filters.skills.isEmpty && truthyOptList jd.skills then
      score + min ((skillOverlap (jd.skills.getD []) filters.skills : ℚ) * (1/10)) (1/5)
    else score
  min score 1

/-! ### Fusion (`_merge_and_rank_results`) -/

/-- The `processed_jobs` Python dict: an insertion-ordered association list
from job id to job. -/
abbrev JobDict := List (Nat × Job)

/-- `d[k] = v` on a Python dict: update in place at the (unique) position of
an existing key, otherwise append at the end. -/
def dictSet : JobDict → Nat → Job → JobDict
  | [], k, v => [(k, v)]
  | p :: rest, k, v => if p.1 == k then (k, v) :: rest else p :: dictSet rest k v

/-- `k in d` on a Python dict. -/
def dictMem (d : JobDict) (k : Nat) : Bool :=
  d.any (fun p => p.1 == k)

/-- `d.get(k)` on a Python dict. -/
def dictGet (d : JobDict) (k : Nat) : Option Job :=
  (d.find? (fun p => p.1 == k)).map (fun p => p.2)

/-- `scylla_job_map = {job["job_id"]: job for job in scylla_results}` —
lookup in a dict comprehension: the *last* row with the id wins. -/
def scyllaMapGet (sr : List ScyllaJob) (id : Nat) : Option ScyllaJob :=
  sr.reverse.find? (fun j => j.job_id == id)

/-- Step 2 body of `_merge_and_rank_results`: enrich a vector hit with the
Scylla row of the same id when one exists. -/
def buildVectorJob (sr : List ScyllaJob) (v : VectorResult) : Option Job :=
  match scyllaMapGet sr v.job_id with
  | some sj => createJobFromData sj v.match_score
  | none => createJobFromVectorResult v

/-- One iteration of the vector-results loop (step 2): a passing candidate is
written into the dict unconditionally (`processed_jobs[job_id] = job`). -/
def vectorStep (sr : List ScyllaJob) (filters : ParsedFilters)
    (d : JobDict) (v : VectorResult) : JobDict :=
  match buildVectorJob sr v with
  | some j => if passesFilters j filters then dictSet d v.job_id j else d
  | none => d

/-- Step 2 of `_merge_and_rank_results`. -/
def processVector (vr : List VectorResult) (sr : List ScyllaJob)
    (filters : ParsedFilters) : JobDict :=
  vr.foldl (vectorStep sr filters) []

/-- One iteration of the Scylla-only loop (step 3): skipped when the id is
already in the dict (`if job_id not in processed_jobs`). -/
def scyllaStep (filters : ParsedFilters) (d : JobDict) (sj : ScyllaJob) : JobDict :=
  if dictMem d sj.job_id then d
  else
    match createJobFromData sj (calculateTextSimilarityScore sj filters) with
    | some j => if passesFilters j filters then dictSet d sj.job_id j else d
    | none => d

/-- Step 3 of `_merge_and_rank_results`. -/
def addScyllaOnly (d0 : JobDict) (sr : List ScyllaJob)
    (filters : ParsedFilters) : JobDict :=
  sr.foldl (scyllaStep filters) d0

/-- The dict after both passes. -/
def mergedDict (vr : List VectorResult) (sr : List ScyllaJob)
    (filters : ParsedFilters) : JobDict :=
  addScyllaOnly (processVector vr sr filters) sr filters

/-- `key=lambda job: job.match_score or 0` — `None` (and `0.0`, which `or`
also replaces by `0`, with the same value) sorts as `0`. -/
def scoreOf (j : Job) : ℚ :=
  j.match_score.getD 0

/-- The descending order used by step 4: `a` may come before `b` when `b`'s
sort key does not exceed `a`'s. -/
def jobOrder (a b : Job) : Prop :=
  scoreOf b ≤ scoreOf a

instance : DecidableRel jobOrder := fun a b =>
  inferInstanceAs (Decidable (scoreOf b ≤ scoreOf a))

instance : IsTotal Job jobOrder :=
  ⟨fun a b => le_total (scoreOf b) (scoreOf a)⟩

instance : IsTrans Job jobOrder :=
  ⟨fun _ _ _ h1 h2 => le_trans h2 h1⟩

/-- `_merge_and_rank_results` (`search_service.py`): both passes, then
`sorted(..., key=lambda job: job.match_score or 0, reverse=True)`.  Python's
`sorted` is stable; `insertionSort` with `jobOrder` realizes the same stable
descending order. -/
def mergeAndRankResults (vr : List VectorResult) (sr : List ScyllaJob)
    (filters : ParsedFilters) : List Job :=
  List.insertionSort jobOrder ((mergedDict vr sr filters).map (fun p => p.2))

/-- `MAX_FINAL_RESULTS` default from `app/config.py`. -/
def MAX_FINAL_RESULTS : Nat := 20

/-- The engine response (`SearchResponse` in `job_models.py`). -/
structure SearchResponse where
  query : String
  parsed_filters : ParsedFilters
  results : List Job
  deriving Repr, DecidableEq

/-- `search_jobs` (`search_service.py`), parameterized by the outputs of the
external collaborators (query parser, vector store, Scylla store): merge,
rank and truncate to `MAX_FINAL_RESULTS`. -/
def searchJobs (query : String) (parsedFilters : ParsedFilters)
    (vectorResults : List VectorResult) (scyllaResults : List ScyllaJob) :
    SearchResponse :=
  { query := query
    parsed_filters := parsedFilters
    results := (mergeAndRankResults vectorResults scyllaResults parsedFilters).take
      MAX_FINAL_RESULTS }

/-! ### Structured store (`ScyllaRepository.filter_jobs`) -/

/-- The CQL `WHERE` clause built by `filter_jobs`: `status` always (with the
Python-`or` default `"active"` for a falsy filter status), plus exact,
case-sensitive equality on city / category / employment_type /
experience_level for each truthy filter field.  A NULL column never equals a
bound text value. -/
def scyllaWhereMatch (filters : ParsedFilters) (row : ScyllaJob) : Bool :=
  (row.status == some (if truthyStr filters.status then filters.status.getD "" else "active")) &&
  (!(truthyStr filters.location) || row.city == filters.location) &&
  (!(truthyStr filters.category) || row.category == filters.category) &&
  (!(truthyStr filters.employment_type) || row.employment_type == filters.employment_type) &&
  (!(truthyStr filters.experience_level) || row.experience_level == filters.experience_level)

/-- The post-query skill filter of `filter_jobs`: `set(filters.skills)` and
`set(job_data['skills'])` are intersected with **no lower-casing** — a
case-sensitive comparison. -/
def scyllaSkillReject (fskills : List String) (jskills : Option (List String)) : Bool :=
  !fskills.isEmpty && truthyOptList jskills &&
    !((jskills.getD []).any (fun s => fskills.contains s))

/-- The post-query row filter of `filter_jobs` (salary bounds, then skills);
a rejected row is skipped by `continue`. -/
def scyllaPostFilter (filters : ParsedFilters) (row : ScyllaJob) : Bool :=
  !(rejectSalaryMin filters.salary_min row.salary_min) &&
  !(rejectSalaryMax filters.salary_max row.salary_max) &&
  !(scyllaSkillReject filters.skills row.skills)

/-- `ScyllaRepository.filter_jobs`, with the table contents `db` explicit:
the database applies the `WHERE` clause and the `LIMIT`, then the Python loop
applies the post-query salary and skill filters. -/
def scyllaFilterJobs (db : List ScyllaJob) (filters : ParsedFilters)
    (limit : Nat) : List ScyllaJob :=
  ((db.filter (scyllaWhereMatch filters)).take limit).filter (scyllaPostFilter filters)

/-! ### Rule-based query parser (`app/utils/query_parser.py`)

The salary and radius regexes of the source are built from character classes
whose consecutive components are pairwise disjoint (digits / `k` /
whitespace / `[-–to]` / literal heads), so greedy matching without
backtracking coincides with Python `re` semantics; `re.search` tries start
positions left to right. -/

/-- Python `\s` for the ASCII range. -/
def pyIsSpace (c : Char) : Bool :=
  c == ' ' || c == '\t' || c == '\n' || c == '\r' || c == '\x0b' || c == '\x0c'

/-- The character class `[-–to]` of the salary range patterns. -/
def isDashTO (c : Char) : Bool :=
  c == '-' || c == '–' || c == 't' || c == 'o'

/-- Matcher state: accumulated matched span and remaining input. -/
abbrev MState := List Char × List Char

/-- Match a literal. -/
def mLit (lit : String) (m : MState) : Option MState :=
  if lit.toList.isPrefixOf m.2 then
    some (m.1 ++ lit.toList, m.2.drop lit.toList.length)
  else none

/-- Greedy `class+`. -/
def mPlus (p : Char → Bool) (m : MState) : Option MState :=
  let t := m.2.takeWhile p
  if t.isEmpty then none else some (m.1 ++ t, m.2.drop t.length)

/-- Greedy `class*` (never fails). -/
def mStar (p : Char → Bool) (m : MState) : Option MState :=
  let t := m.2.takeWhile p
  some (m.1 ++ t, m.2.drop t.length)

/-- Greedy `c?`. -/
def mOptChar (c : Char) (m : MState) : Option MState :=
  match m.2 with
  | [] => some m
  | x :: r => if x == c then some (m.1 ++ [x], r) else some m

/-- Numeric value of a digit run. -/
def natOfDigits (ds : List Char) : Nat :=
  ds.foldl (fun n c => n * 10 + (c.toNat - 48)) 0

/-- Greedy `(\d+)` with its captured value. -/
def mDigits (m : MState) : Option (MState × Nat) :=
  let t := m.2.takeWhile Char.isDigit
  if t.isEmpty then none
  else some ((m.1 ++ t, m.2.drop t.length), natOfDigits t)

/-- Ordered alternation of literals, e.g. `(?:km|kilometer|kilometres)`
(the alternatives are mutually exclusive at any position). -/
def mAlts (lits : List String) (m : MState) : Option MState :=
  match lits with
  | [] => none
  | l :: ls =>
    match mLit l m with
    | some r => some r
    | none => mAlts ls m

/-- `re.search`: try the anchored matcher at each start position, left to
right. -/
def reSearch {α : Type} (f : List Char → Option α) : List Char → Option α
  | [] => f []
  | cs@(_ :: rest) =>
    match f cs with
    | some r => some r
    | none => reSearch f rest

/-- A salary regex match: whole matched span (`group(0)`) and the one or two
captured numbers. -/
structure SalaryMatch where
  span : List Char
  g1 : Nat
  g2 : Option Nat
  deriving Repr, DecidableEq

/-- `(\d+)[kK]?\s*[-–to]+\s*(\d+)[kK]?` anchored at the current position
(the input is already lower-cased, so `[kK]` is `k`). -/
def salaryPat1At (cs : List Char) : Option SalaryMatch := do
  let (m1, v1) ← mDigits ([], cs)
  let m2 ← mOptChar 'k' m1
  let m3 ← mStar pyIsSpace m2
  let m4 ← mPlus isDashTO m3
  let m5 ← mStar pyIsSpace m4
  let (m6, v2) ← mDigits m5
  let m7 ← mOptChar 'k' m6
  return { span := m7.1, g1 := v1, g2 := some v2 }

/-- `(\d+)k?\s*-\s*(\d+)k?` anchored. -/
def salaryPat2At (cs : List Char) : Option SalaryMatch := do
  let (m1, v1) ← mDigits ([], cs)
  let m2 ← mOptChar 'k' m1
  let m3 ← mStar pyIsSpace m2
  let m4 ← mLit "-" m3
  let m5 ← mStar pyIsSpace m4
  let (m6, v2) ← mDigits m5
  let m7 ← mOptChar 'k' m6
  return { span := m7.1, g1 := v1, g2 := some v2 }

/-- `salary\s+(\d+)[kK]?\s*[-–to]+\s*(\d+)[kK]?` anchored. -/
def salaryPat3At (cs : List Char) : Option SalaryMatch := do
  let m0 ← mLit "salary" ([], cs)
  let m1 ← mPlus pyIsSpace m0
  let (m2, v1) ← mDigits m1
  let m3 ← mOptChar 'k' m2
  let m4 ← mStar pyIsSpace m3
  let m5 ← mPlus isDashTO m4
  let m6 ← mStar pyIsSpace m5
  let (m7, v2) ← mDigits m6
  let m8 ← mOptChar 'k' m7
  return { span := m8.1, g1 := v1, g2 := some v2 }

/-- `minimum\s+(\d+)[kK]?\s+salary` anchored. -/
def salaryPat4At (cs : List Char) : Option SalaryMatch := do
  let m0 ← mLit "minimum" ([], cs)
  let m1 ← mPlus pyIsSpace m0
  let (m2, v1) ← mDigits m1
  let m3 ← mOptChar 'k' m2
  let m4 ← mPlus pyIsSpace m3
  let m5 ← mLit "salary" m4
  return { span := m5.1, g1 := v1, g2 := none }

/-- `(\d+)[kK]?\s+minimum` anchored. -/
def salaryPat5At (cs : List Char) : Option SalaryMatch := do
  let (m1, v1) ← mDigits ([], cs)
  let m2 ← mOptChar 'k' m1
  let m3 ← mPlus pyIsSpace m2
  let m4 ← mLit "minimum" m3
  return { span := m4.1, g1 := v1, g2 := none }

/-- The fixed ordered pattern list (`salary_patterns`), each already wrapped
in `re.search`. -/
def salaryPattern (i : Fin 5) : List Char → Option SalaryMatch :=
  match i with
  | 0 => reSearch salaryPat1At
  | 1 => reSearch salaryPat2At
  | 2 => reSearch salaryPat3At
  | 3 => reSearch salaryPat4At
  | 4 => reSearch salaryPat5At

/-- The `for pattern in salary_patterns ... break` loop: first pattern with a
match wins. -/
def salarySearch (cs : List Char) : Option SalaryMatch :=
  match reSearch salaryPat1At cs with
  | some m => some m
  | none =>
    match reSearch salaryPat2At cs with
    | some m => some m
    | none =>
      match reSearch salaryPat3At cs with
      | some m => some m
      | none =>
        match reSearch salaryPat4At cs with
        | some m => some m
        | none => reSearch salaryPat5At cs

/-- The body applied to the winning match in the salary loop: parse the
captures, multiply by 1000 when a `k` occurs in `group(0)`, and assign
`min`/`max` (two captures) or `salary_min` alone (one capture). -/
def extractSalary (cs : List Char) : Option Int × Option Int :=
  match salarySearch cs with
  | none => (none, none)
  | some m =>
    match m.g2 with
    | some w =>
      let v1 : Nat := if m.span.contains 'k' then m.g1 * 1000 else m.g1
      let v2 : Nat := if m.span.contains 'k' then w * 1000 else w
      (some (min (v1 : Int) (v2 : Int)), some (max (v1 : Int) (v2 : Int)))
    | none =>
      let v1 : Nat := if m.span.contains 'k' then m.g1 * 1000 else m.g1
      (some (v1 : Int), none)

/-- `within\s+(\d+)\s*(?:km|kilometer|kilometres)` anchored. -/
def radiusPat1At (cs : List Char) : Option Nat := do
  let m0 ← mLit "within" ([], cs)
  let m1 ← mPlus pyIsSpace m0
  let (m2, v) ← mDigits m1
  let m3 ← mStar pyIsSpace m2
  let _ ← mAlts ["km", "kilometer", "kilometres"] m3
  return v

/-- `(\d+)\s*(?:km|kilometer|kilometres)\s+radius` anchored. -/
def radiusPat2At (cs : List Char) : Option Nat := do
  let (m1, v) ← mDigits ([], cs)
  let m2 ← mStar pyIsSpace m1
  let m3 ← mAlts ["km", "kilometer", "kilometres"] m2
  let m4 ← mPlus pyIsSpace m3
  let _ ← mLit "radius" m4
  return v

/-- `radius\s+of\s+(\d+)\s*(?:km|kilometer|kilometres)` anchored. -/
def radiusPat3At (cs : List Char) : Option Nat := do
  let m0 ← mLit "radius" ([], cs)
  let m1 ← mPlus pyIsSpace m0
  let m2 ← mLit "of" m1
  let m3 ← mPlus pyIsSpace m2
  let (m4, v) ← mDigits m3
  let m5 ← mStar pyIsSpace m4
  let _ ← mAlts ["km", "kilometer", "kilometres"] m5
  return v

/-- The radius-pattern loop: first pattern with a match wins. -/
def extractRadius (cs : List Char) : Option Int :=
  match reSearch radiusPat1At cs with
  | some v => some (v : Int)
  | none =>
    match reSearch radiusPat2At cs with
    | some v => some (v : Int)
    | none =>
      match reSearch radiusPat3At cs with
      | some v => some (v : Int)
      | none => none

/-- The stop-list of the keyword extraction loop. -/
def stopWords : List String :=
  ["the", "and", "with", "for", "job", "jobs", "work", "role", "position"]

/-- `re.sub(r'[^\w\s]', '', word.lower())`: lower-case, then keep only word
characters (the split words carry no whitespace). -/
def cleanWord (w : String) : String :=
  String.mk ((lowerStr w).toList.filter (fun c => c.isAlphanum || c == '_' || pyIsSpace c))

/-- `query.split()` — split on whitespace runs, dropping empty pieces. -/
def pySplit (q : String) : List String :=
  (q.split pyIsSpace).filter (fun w => w != "")

/-- The raw keyword list: cleaned words longer than 2 characters that are not
stop words. -/
def rawKeywords (query : String) : List String :=
  (pySplit query).filterMap
    (fun w =>
      let wc := cleanWord w
      if wc.length > 2 && !(stopWords.contains wc) then some wc else none)

/-- The fixed city list of the parser. -/
def citiesDb : List String :=
  ["Dhaka", "Chittagong", "Sylhet", "Rajshahi", "Khulna", "Barisal", "Rangpur",
   "Mymensingh", "Cumilla", "Gazipur", "Narayanganj", "Jessore", "Bogra",
   "Dinajpur", "Pabna", "Comilla",
   "New York", "London", "Toronto", "Sydney", "Dubai", "Singapore", "Bangalore",
   "Mumbai"]

/-- The fixed skill list of the parser. -/
def skillsDb : List String :=
  ["Python", "Java", "JavaScript", "TypeScript", "C++", "C#", "Go", "Rust",
   "PHP", "Ruby", "Swift", "Kotlin",
   "React", "Angular", "Vue", "Node.js", "Express", "FastAPI", "Django",
   "Flask", "Spring", "Laravel",
   "TensorFlow", "PyTorch", "Scikit-learn", "Pandas", "NumPy", "OpenCV",
   "AWS", "Azure", "GCP", "Docker", "Kubernetes", "Jenkins", "Git", "MongoDB",
   "PostgreSQL", "MySQL", "Redis",
   "Machine Learning", "AI", "Data Science", "DevOps", "Frontend", "Backend",
   "Full-stack", "Mobile"]

/-- `employment_types`, in dict insertion order. -/
def employmentTypesDb : List (String × List String) :=
  [("full-time", ["full-time", "fulltime", "permanent", "full time"]),
   ("part-time", ["part-time", "parttime", "part time"]),
   ("contract", ["contract", "contractor", "freelance", "consulting"]),
   ("remote", ["remote", "work from home", "wfh", "telecommute"])]

/-- `experience_levels`, in dict insertion order. -/
def experienceLevelsDb : List (String × List String) :=
  [("entry", ["entry", "junior", "beginner", "fresher", "graduate", "intern"]),
   ("mid", ["mid", "intermediate", "experienced", "senior", "lead"]),
   ("senior", ["senior", "principal", "architect", "manager", "director", "head"])]

/-- `categories`, in dict insertion order. -/
def categoriesDb : List (String × List String) :=
  [("Software Engineering", ["software", "developer", "programmer", "engineer", "coding"]),
   ("Data Science", ["data science", "data scientist", "analytics", "data analyst"]),
   ("AI/ML", ["ai", "artificial intelligence", "machine learning", "ml", "deep learning"]),
   ("DevOps", ["devops", "deployment", "infrastructure", "cloud"]),
   ("Design", ["designer", "ui", "ux", "graphic", "creative"]),
   ("Marketing", ["marketing", "digital marketing", "content", "social media"]),
   ("Sales", ["sales", "business development", "account manager"]),
   ("Finance", ["finance", "accounting", "financial analyst"]),
   ("HR", ["human resources", "hr", "recruiter", "talent acquisition"]),
   ("Education", ["teacher", "tutor", "instructor", "professor", "education"])]

/-- The nested detection loops over a keyword table: first entry one of whose
keywords occurs in the lower-cased query wins. -/
def detectFromTable (table : List (String × List String)) (queryLower : String) :
    Option (String × List String) :=
  table.find? (fun p => p.2.any (fun kw => containsSub queryLower kw))

/-- `parse_query_rule_based` (`query_parser.py`). -/
def parseQueryRuleBased (query : String) : ParsedFilters :=
  let queryLower := lowerStr query
  let keywords := rawKeywords query
  let location := citiesDb.find? (fun city => containsSub queryLower (lowerStr city))
  let radius := extractRadius queryLower.toList
  let skills := skillsDb.filter (fun sk => containsSub queryLower (lowerStr sk))
  let salary := extractSalary queryLower.toList
  let employment := detectFromTable employmentTypesDb queryLower
  let experience := detectFromTable experienceLevelsDb queryLower
  let category := detectFromTable categoriesDb queryLower
  let detectedTerms : List String :=
    (match location with | some c => [lowerStr c] | none => []) ++
    (match employment with | some p => p.2 | none => []) ++
    (match experience with | some p => p.2 | none => []) ++
    (skills.map lowerStr) ++
    (match category with | some p => p.2.map lowerStr | none => [])
  let finalKeywords :=
    keywords.filter
      (fun kw => !(detectedTerms.contains kw) &&
        !(detectedTerms.any (fun t => containsSub kw t)))
  { intent := some "job_search"
    keywords := finalKeywords.take 5
    location := location
    geo_radius_km := radius
    salary_min := salary.1
    salary_max := salary.2
    employment_type := employment.map (fun p => p.1)
    experience_level := experience.map (fun p => p.1)
    skills := skills
    category := category.map (fun p => p.1)
    status := some "active"
    detected_language := none
    original_query := none }

/-! ### Spec-side definitions used as refinement targets -/

/-- Number of filter keywords occurring (lower-cased) in the lower-cased
title. -/
def countTitleKeywords (title : String) (keywords : List String) : Nat :=
  (keywords.filter (fun kw => containsSub title (lowerStr kw))).length

/-- Number of filter keywords occurring only in the lower-cased description
(not in the title). -/
def countDescOnlyKeywords (title desc : String) (keywords : List String) : Nat :=
  (keywords.filter
      (fun kw => !(containsSub title (lowerStr kw)) && containsSub desc (lowerStr kw))).length

/-- The heuristic relevance score as described (amended): base 0.5; 0.1 per
keyword in the title, 0.05 per keyword only in the description, this bonus
capped at 0.3; 0.1 per case-insensitively intersecting skill, capped at 0.2;
the sum clamped to the range [0, 1]. -/
def specHeuristicScore (jd : ScyllaJob) (filters : ParsedFilters) : ℚ :=
  let title := lowerStr (jd.title.getD "")
  let desc := lowerStr (jd.description.getD "")
  let t : ℚ := (countTitleKeywords title filters.keywords : ℚ)
  let d : ℚ := (countDescOnlyKeywords title desc filters.keywords : ℚ)
  let kwBonus : ℚ := min (t * (1/10) + d * (1/20)) (3/10)
  let skillBonus : ℚ :=
    min ((skillOverlap (jd.skills.getD []) filters.skills : ℚ) * (1/10)) (1/5)
  max 0 (min (1/2 + kwBonus + skillBonus) 1)

/-- Keys of the fusion dict are distinct and every entry's value carries the
entry's key as its job id. -/
def goodDict (d : JobDict) : Prop :=
  (d.map (fun p => p.1)).Nodup ∧ ∀ p ∈ d, p.2.job_id = p.1

/-- A job's match score is set and lies in [0, 1]. -/
def scoreSet01 (j : Job) : Prop :=
  j.match_score.isSome = true ∧ 0 ≤ j.match_score.getD 0 ∧ j.match_score.getD 0 ≤ 1

/-- The spec's description of when the filter predicate may reject: some
filter field is specified, the job's corresponding field is present, and the
two disagree. -/
def rejectionJustified (job : Job) (filters : ParsedFilters) : Prop :=
  (∃ fv jv, filters.salary_min = some fv ∧ job.salary_min = some jv ∧ jv < fv)
  ∨ (∃ fv jv, filters.salary_max = some fv ∧ job.salary_max = some jv ∧ jv > fv)
  ∨ (filters.skills ≠ [] ∧ job.skills ≠ [] ∧
      ∀ s ∈ job.skills, ∀ t ∈ filters.skills, lowerStr s ≠ lowerStr t)
  ∨ (∃ fv jv, filters.location = some fv ∧ job.city = some jv ∧
      lowerStr fv ≠ lowerStr jv)
  ∨ (∃ fv jv, filters.employment_type = some fv ∧ job.employment_type = some jv ∧
      lowerStr fv ≠ lowerStr jv)
  ∨ (∃ fv jv, filters.experience_level = some fv ∧ job.experience_level = some jv ∧
      lowerStr fv ≠ lowerStr jv)
  ∨ (∃ fv jv, filters.category = some fv ∧ job.category = some jv ∧
      lowerStr fv ≠ lowerStr jv)

/-- The salary extraction as the spec words it: the first matching pattern of
the fixed ordered list wins; each captured number is multiplied by 1000 when a
`k` appears anywhere in the matched span; two captures populate
`salary_min`/`salary_max` with the smaller/larger value, one capture populates
`salary_min` alone. -/
def specSalaryExtract (cs : List Char) : Option Int × Option Int :=
  match salarySearch cs with
  | none => (none, none)
  | some m =>
    let mult : Nat := if m.span.contains 'k' then 1000 else 1
    match m.g2 with
    | some w =>
      (some ((min (m.g1 * mult) (w * mult) : Nat) : Int),
       some ((max (m.g1 * mult) (w * mult) : Nat) : Int))
    | none => (some ((m.g1 * mult : Nat) : Int), none)

/-! ### C1 and C10: the heuristic relevance score -/

lemma keywordMatches_acc (title desc : String) (kws : List String) (a : Nat) :
    kws.foldl
      (fun acc kw =>
        if containsSub title (lowerStr kw) then acc + 2
        else if containsSub desc (lowerStr kw) then acc + 1
        else acc) a
    = a + 2 * countTitleKeywords title kws + countDescOnlyKeywords title desc kws := by
  induction kws generalizing a with
  | nil => simp [countTitleKeywords, countDescOnlyKeywords]
  | cons kw rest ih =>
    rw [List.foldl_cons]
    by_cases h1 : containsSub title (lowerStr kw) = true
    · have hstep :
          (if containsSub title (lowerStr kw) then a + 2
            else if containsSub desc (lowerStr kw) then a + 1 else a) = a + 2 := by
        simp [h1]
      rw [hstep, ih]
      simp [countTitleKeywords, countDescOnlyKeywords, List.filter_cons, h1]
      omega
    · by_cases h2 : containsSub desc (lowerStr kw) = true
      · have hstep :
            (if containsSub title (lowerStr kw) then a + 2
              else if containsSub desc (lowerStr kw) then a + 1 else a) = a + 1 := by
          simp [h1, h2]
        rw [hstep, ih]
        simp [countTitleKeywords, countDescOnlyKeywords, List.filter_cons, h1, h2]
        omega
      · have hstep :
            (if containsSub title (lowerStr kw) then a + 2
              else if containsSub desc (lowerStr kw) then a + 1 else a) = a := by
          simp [h1, h2]
        rw [hstep, ih]
        simp [countTitleKeywords, countDescOnlyKeywords, List.filter_cons, h1, h2]

lemma keywordMatches_eq (title desc : String) (kws : List String) :
    keywordMatches title desc kws
      = 2 * countTitleKeywords title kws + countDescOnlyKeywords title desc kws := by
  simpa using keywordMatches_acc title desc kws 0

lemma skillOverlap_left_nil (fs : List String) : skillOverlap [] fs = 0 := by
  simp [skillOverlap]

lemma skillOverlap_right_nil (js : List String) : skillOverlap js [] = 0 := by
  simp [skillOverlap]

/-- When the source's skill-bonus gate is off, the overlap is zero. -/
lemma skillOverlap_gate_zero (jd : ScyllaJob) (filters : ParsedFilters)
    (h : ¬((!filters.skills.isEmpty && truthyOptList jd.skills) = true)) :
    skillOverlap (jd.skills.getD []) filters.skills = 0 := by
  by_cases hf : filters.skills.isEmpty = true
  · rw [List.isEmpty_iff.mp hf]
    exact skillOverlap_right_nil _
  · have hj : ¬(truthyOptList jd.skills = true) := by
      intro hjt
      exact h (by simp [hjt, hf])
    cases hjs : jd.skills with
    | none => simpa using skillOverlap_left_nil filters.skills
    | some l =>
      have hl : l = [] := by
        rw [hjs] at hj
        simpa [truthyOptList, List.isEmpty_iff] using hj
      subst hl
      simpa using skillOverlap_left_nil filters.skills

/-- The computed score, rewritten into the clamped spec shape (shared by the
C1 and C10 theorems). -/
lemma calcScore_eq_specScore (jd : ScyllaJob) (filters : ParsedFilters) :
    calculateTextSimilarityScore jd filters = specHeuristicScore jd filters := by
  unfold calculateTextSimilarityScore specHeuristicScore
  simp only [keywordMatches_eq]
  set t := countTitleKeywords (lowerStr (jd.title.getD "")) filters.keywords with ht
  set d := countDescOnlyKeywords (lowerStr (jd.title.getD ""))
      (lowerStr (jd.description.getD "")) filters.keywords with hd
  set ovq : ℚ := ((skillOverlap (jd.skills.getD []) filters.skills : Nat) : ℚ) with hov
  have harith : ((2 * t + d : Nat) : ℚ) * (1/20) = (t : ℚ) * (1/10) + (d : ℚ) * (1/20) := by
    push_cast
    ring
  rw [harith]
  have hkb0 : (0:ℚ) ≤ min ((t : ℚ) * (1/10) + (d : ℚ) * (1/20)) (3/10) := by
    apply le_min
    · positivity
    · norm_num
  have hsb0 : (0:ℚ) ≤ min (ovq * (1/10)) (1/5) := by
    apply le_min
    · have : (0:ℚ) ≤ ovq := by rw [hov]; positivity
      linarith
    · norm_num
  by_cases hgate : (!filters.skills.isEmpty && truthyOptList jd.skills) = true
  · rw [if_pos hgate]
    rw [max_eq_right (le_min (by linarith) (by norm_num))]
  · rw [if_neg hgate]
    have hz : ovq = 0 := by
      rw [hov, skillOverlap_gate_zero jd filters hgate]
      norm_num
    rw [hz, zero_mul]
    have hmin0 : min (0:ℚ) (1/5) = 0 := by norm_num
    rw [hmin0, add_zero]
    rw [max_eq_right (le_min (by linarith) (by norm_num))]

/-- C1 (amended): for every structured-only candidate the heuristic relevance
score equals 0.5 plus a keyword bonus of 0.1 for each filter keyword
appearing as a substring of the job's lower-cased title (0.05 if it appears
only in the description), capped at 0.3 total, plus a skill bonus of 0.1 per
case-insensitively intersecting skill capped at 0.2, the sum clamped to
[0, 1] (`specHeuristicScore`). -/
theorem heuristicScore_eq_spec (jd : ScyllaJob) (filters : ParsedFilters) :
    calculateTextSimilarityScore jd filters = specHeuristicScore jd filters :=
  calcScore_eq_specScore jd filters

/-- C1 (counterexample): a structured-only candidate whose lower-cased title
contains the single filter keyword and which has no skills scores
0.5 + 0.1 = 0.6, not 0.5 + 0.2 = 0.7 as the claimed per-title-keyword bonus
of 0.2 would give. -/
theorem heuristicScore_counterexample :
    calculateTextSimilarityScore
        { job_id := 1, title := some "python developer" }
        { keywords := ["python"] }
      = 3/5
    ∧ (3/5 : ℚ) ≠ 1/2 + 1/5 := by
  constructor
  · unfold calculateTextSimilarityScore
    have hkm : keywordMatches (lowerStr "python developer") (lowerStr "") ["python"] = 2 := by
      decide
    simp only [Option.getD_some, Option.getD_none]
    rw [hkm]
    norm_num [truthyOptList, min_def]
  · norm_num

/-- Bounds of the computed heuristic score, shared by several theorems. -/
lemma calcScore_bounds (jd : ScyllaJob) (filters : ParsedFilters) :
    1/2 ≤ calculateTextSimilarityScore jd filters
    ∧ calculateTextSimilarityScore jd filters ≤ 1 := by
  rw [calcScore_eq_specScore jd filters]
  unfold specHeuristicScore
  set t : ℚ := (countTitleKeywords (lowerStr (jd.title.getD "")) filters.keywords : ℚ)
    with ht
  set d : ℚ := (countDescOnlyKeywords (lowerStr (jd.title.getD ""))
      (lowerStr (jd.description.getD "")) filters.keywords : ℚ) with hd
  set ovq : ℚ := ((skillOverlap (jd.skills.getD []) filters.skills : Nat) : ℚ) with hov
  have ht0 : (0:ℚ) ≤ t := by rw [ht]; positivity
  have hd0 : (0:ℚ) ≤ d := by rw [hd]; positivity
  have hov0 : (0:ℚ) ≤ ovq := by rw [hov]; positivity
  have hkb0 : (0:ℚ) ≤ min (t * (1/10) + d * (1/20)) (3/10) := by
    apply le_min
    · positivity
    · norm_num
  have hsb0 : (0:ℚ) ≤ min (ovq * (1/10)) (1/5) := by
    apply le_min
    · positivity
    · norm_num
  constructor
  · apply le_max_of_le_right
    apply le_min
    · linarith
    · norm_num
  · apply max_le
    · norm_num
    · exact min_le_right _ _

/-- C10: the heuristic relevance score of a structured-only candidate always
lies in [0.5, 1] — the lower clamp to 0 is unreachable — and hence exceeds
any vector similarity below 0.5. -/
theorem heuristicScore_range (jd : ScyllaJob) (filters : ParsedFilters) :
    1/2 ≤ calculateTextSimilarityScore jd filters
    ∧ calculateTextSimilarityScore jd filters ≤ 1
    ∧ ∀ v : VectorResult, v.match_score < 1/2 →
        v.match_score < calculateTextSimilarityScore jd filters :=
  ⟨(calcScore_bounds jd filters).1, (calcScore_bounds jd filters).2,
    fun _ hv => lt_of_lt_of_le hv (calcScore_bounds jd filters).1⟩

/-- C10 (witness): the range theorem applied to a bare candidate and a vector
similarity of 1/4. -/
theorem heuristicScore_range_witness :
    ({ job_id := 9, match_score := 1/4 } : VectorResult).match_score < 1/2
    ∧ ({ job_id := 9, match_score := 1/4 } : VectorResult).match_score
        < calculateTextSimilarityScore { job_id := 2, title := some "t" } {} := by
  have hlt : ({ job_id := 9, match_score := 1/4 } : VectorResult).match_score < 1/2 := by
    show (1:ℚ)/4 < 1/2
    norm_num
  exact ⟨hlt,
    (heuristicScore_range { job_id := 2, title := some "t" } {}).2.2 _ hlt⟩

/-! ### Dict and fusion invariants (C2, C3, C4, C6) -/

lemma createJobFromData_props (jd : ScyllaJob) (s : ℚ) (j : Job)
    (h : createJobFromData jd s = some j) :
    j.job_id = jd.job_id ∧ j.match_score = some s := by
  unfold createJobFromData at h
  cases htitle : jd.title with
  | none => rw [htitle] at h; simp at h
  | some t =>
    rw [htitle] at h
    simp only [Option.some.injEq] at h
    subst h
    exact ⟨rfl, rfl⟩

lemma createJobFromVectorResult_props (v : VectorResult) (j : Job)
    (h : createJobFromVectorResult v = some j) :
    j.job_id = v.job_id ∧ j.match_score = some v.match_score := by
  unfold createJobFromVectorResult at h
  simp only [Option.some.injEq] at h
  subst h
  exact ⟨rfl, rfl⟩

lemma scyllaMapGet_id (sr : List ScyllaJob) (id : Nat) (sj : ScyllaJob)
    (h : scyllaMapGet sr id = some sj) : sj.job_id = id := by
  unfold scyllaMapGet at h
  simpa using List.find?_some h

lemma buildVectorJob_props (sr : List ScyllaJob) (v : VectorResult) (j : Job)
    (h : buildVectorJob sr v = some j) :
    j.job_id = v.job_id ∧ j.match_score = some v.match_score := by
  unfold buildVectorJob at h
  cases hm : scyllaMapGet sr v.job_id with
  | none =>
    rw [hm] at h
    exact createJobFromVectorResult_props v j h
  | some sj =>
    rw [hm] at h
    rcases createJobFromData_props sj _ j h with ⟨hid, hsc⟩
    exact ⟨hid.trans (scyllaMapGet_id sr v.job_id sj hm), hsc⟩

lemma dictMem_iff (d : JobDict) (k : Nat) :
    dictMem d k = true ↔ k ∈ d.map (fun p => p.1) := by
  constructor
  · intro h
    rw [dictMem, List.any_eq_true] at h
    rcases h with ⟨p, hp, hpk⟩
    exact List.mem_map.mpr ⟨p, hp, by simpa using hpk⟩
  · intro h
    rcases List.mem_map.mp h with ⟨p, hp, hpk⟩
    rw [dictMem, List.any_eq_true]
    exact ⟨p, hp, by simp [hpk]⟩

lemma dictSet_keys (d : JobDict) (k : Nat) (v : Job) :
    (dictSet d k v).map (fun p => p.1)
      = if dictMem d k then d.map (fun p => p.1) else d.map (fun p => p.1) ++ [k] := by
  induction d with
  | nil => simp [dictSet, dictMem]
  | cons p rest ih =>
    by_cases hpk : (p.1 == k) = true
    · have : p.1 = k := by simpa using hpk
      simp [dictSet, dictMem, hpk, this]
    · simp only [dictSet, hpk, Bool.false_eq_true, if_false, List.map_cons, ih]
      have hmem : dictMem (p :: rest) k = dictMem rest k := by
        simp [dictMem, List.any_cons, hpk]
      rw [hmem]
      by_cases hm : dictMem rest k = true
      · simp [hm]
      · simp [hm]

lemma mem_dictSet (d : JobDict) (k : Nat) (v : Job) (q : Nat × Job)
    (h : q ∈ dictSet d k v) : q = (k, v) ∨ q ∈ d := by
  induction d with
  | nil => simp [dictSet] at h; simp [h]
  | cons p rest ih =>
    by_cases hpk : (p.1 == k) = true
    · simp only [dictSet, hpk, if_true] at h
      rcases List.mem_cons.mp h with h | h
      · exact Or.inl h
      · exact Or.inr (List.mem_cons_of_mem _ h)
    · simp only [dictSet, hpk, Bool.false_eq_true, if_false] at h
      rcases List.mem_cons.mp h with h | h
      · exact Or.inr (h ▸ List.mem_cons_self _ _)
      · rcases ih h with h' | h'
        · exact Or.inl h'
        · exact Or.inr (List.mem_cons_of_mem _ h')

lemma goodDict_dictSet (d : JobDict) (k : Nat) (v : Job)
    (hd : goodDict d) (hv : v.job_id = k) : goodDict (dictSet d k v) := by
  constructor
  · rw [dictSet_keys]
    by_cases hm : dictMem d k = true
    · simpa [hm] using hd.1
    · simp only [hm, Bool.false_eq_true, if_false]
      rw [List.nodup_append]
      refine ⟨hd.1, List.nodup_singleton k, ?_⟩
      intro x hx hx'
      rcases List.mem_singleton.mp hx' with rfl
      exact hm ((dictMem_iff d x).mpr hx)
  · intro q hq
    rcases mem_dictSet d k v q hq with rfl | hq'
    · exact hv
    · exact hd.2 q hq'

lemma dictGet_dictSet_self (d : JobDict) (k : Nat) (v : Job) :
    dictGet (dictSet d k v) k = some v := by
  induction d with
  | nil => simp [dictSet, dictGet]
  | cons p rest ih =>
    by_cases hpk : (p.1 == k) = true
    · simp [dictSet, dictGet, hpk]
    · simp only [dictSet, hpk, Bool.false_eq_true, if_false]
      simpa [dictGet, List.find?_cons, hpk] using ih

lemma dictGet_dictSet_ne (d : JobDict) (k : Nat) (v : Job) (k' : Nat)
    (hne : k' ≠ k) : dictGet (dictSet d k v) k' = dictGet d k' := by
  have hkk : (k == k') = false := by simpa using fun h => hne h.symm
  induction d with
  | nil => simp [dictSet, dictGet, hkk]
  | cons p rest ih =>
    by_cases hpk : (p.1 == k) = true
    · have hp : p.1 = k := by simpa using hpk
      simp [dictSet, dictGet, hpk, List.find?_cons, hkk, hp]
    · simp only [dictSet, hpk, Bool.false_eq_true, if_false]
      by_cases hpk' : (p.1 == k') = true
      · simp [dictGet, List.find?_cons, hpk']
      · simpa [dictGet, List.find?_cons, hpk'] using ih

lemma dictMem_dictSet_of_mem (d : JobDict) (k : Nat) (v : Job) (k' : Nat)
    (h : dictMem d k' = true) : dictMem (dictSet d k v) k' = true := by
  rw [dictMem_iff] at h ⊢
  rw [dictSet_keys]
  by_cases hm : dictMem d k = true
  · simpa [hm] using h
  · simp only [hm, Bool.false_eq_true, if_false]
    exact List.mem_append_left _ h

lemma goodDict_vectorStep (sr : List ScyllaJob) (f : ParsedFilters)
    (d : JobDict) (v : VectorResult) (hd : goodDict d) :
    goodDict (vectorStep sr f d v) := by
  unfold vectorStep
  cases hb : buildVectorJob sr v with
  | none => exact hd
  | some j =>
    dsimp only
    by_cases hp : passesFilters j f = true
    · rw [if_pos hp]
      exact goodDict_dictSet d v.job_id j hd (buildVectorJob_props sr v j hb).1
    · rw [if_neg hp]
      exact hd

lemma goodDict_scyllaStep (f : ParsedFilters) (d : JobDict) (sj : ScyllaJob)
    (hd : goodDict d) : goodDict (scyllaStep f d sj) := by
  unfold scyllaStep
  by_cases hm : dictMem d sj.job_id = true
  · rw [if_pos hm]; exact hd
  · rw [if_neg hm]
    cases hc : createJobFromData sj (calculateTextSimilarityScore sj f) with
    | none => exact hd
    | some j =>
      dsimp only
      by_cases hp : passesFilters j f = true
      · rw [if_pos hp]
        exact goodDict_dictSet d sj.job_id j hd (createJobFromData_props sj _ j hc).1
      · rw [if_neg hp]
        exact hd

lemma goodDict_foldl_vector (sr : List ScyllaJob) (f : ParsedFilters) :
    ∀ (vr : List VectorResult) (d : JobDict), goodDict d →
      goodDict (vr.foldl (vectorStep sr f) d) := by
  intro vr
  induction vr with
  | nil => intro d hd; exact hd
  | cons v rest ih =>
    intro d hd
    exact ih _ (goodDict_vectorStep sr f d v hd)

lemma goodDict_foldl_scylla (f : ParsedFilters) :
    ∀ (sr : List ScyllaJob) (d : JobDict), goodDict d →
      goodDict (sr.foldl (scyllaStep f) d) := by
  intro sr
  induction sr with
  | nil => intro d hd; exact hd
  | cons sj rest ih =>
    intro d hd
    exact ih _ (goodDict_scyllaStep f d sj hd)

lemma goodDict_nil : goodDict [] := by
  constructor
  · simp
  · intro p hp; simp at hp

lemma mergedDict_good (vr : List VectorResult) (sr : List ScyllaJob)
    (f : ParsedFilters) : goodDict (mergedDict vr sr f) :=
  goodDict_foldl_scylla f sr _ (goodDict_foldl_vector sr f vr [] goodDict_nil)

/-- C3: no two jobs in the fused result list share a job_id. -/
theorem fused_results_unique_ids (vr : List VectorResult) (sr : List ScyllaJob)
    (f : ParsedFilters) :
    (mergeAndRankResults vr sr f).Pairwise (fun a b => a.job_id ≠ b.job_id) := by
  have hgood := mergedDict_good vr sr f
  have hvals : ((mergedDict vr sr f).map (fun p => p.2)).Pairwise
      (fun a b => a.job_id ≠ b.job_id) := by
    rw [List.pairwise_map]
    have hkeys := hgood.1
    rw [List.Nodup, List.pairwise_map] at hkeys
    refine hkeys.imp_of_mem ?_
    intro a b ha hb hne heq
    exact hne (by rw [← hgood.2 a ha, ← hgood.2 b hb, heq])
  unfold mergeAndRankResults
  exact ((List.perm_insertionSort jobOrder _).pairwise_iff
    (fun h => Ne.symm h)).mpr hvals

/-- C2: the engine response holds at most `MAX_FINAL_RESULTS` results, sorted
by match score descending with a missing score treated as 0. -/
theorem results_bounded_and_sorted (q : String) (f : ParsedFilters)
    (vr : List VectorResult) (sr : List ScyllaJob) :
    (searchJobs q f vr sr).results.length ≤ MAX_FINAL_RESULTS
    ∧ (searchJobs q f vr sr).results.Pairwise
        (fun a b => b.match_score.getD 0 ≤ a.match_score.getD 0) := by
  constructor
  · show ((mergeAndRankResults vr sr f).take MAX_FINAL_RESULTS).length ≤ MAX_FINAL_RESULTS
    rw [List.length_take]
    exact min_le_left _ _
  · show (((mergeAndRankResults vr sr f).take MAX_FINAL_RESULTS)).Pairwise _
    apply List.Pairwise.sublist (List.take_sublist _ _)
    have hs := List.sorted_insertionSort jobOrder
      ((mergedDict vr sr f).map (fun p => p.2))
    exact hs.imp (fun h => h)

lemma scoreSet01_dictSet (d : JobDict) (k : Nat) (v : Job)
    (hd : ∀ p ∈ d, scoreSet01 p.2) (hv : scoreSet01 v) :
    ∀ p ∈ dictSet d k v, scoreSet01 p.2 := by
  intro p hp
  rcases mem_dictSet d k v p hp with rfl | hp'
  · exact hv
  · exact hd p hp'

lemma scores_vectorStep (sr : List ScyllaJob) (f : ParsedFilters) (d : JobDict)
    (v : VectorResult) (hd : ∀ p ∈ d, scoreSet01 p.2)
    (hv : 0 ≤ v.match_score ∧ v.match_score ≤ 1) :
    ∀ p ∈ vectorStep sr f d v, scoreSet01 p.2 := by
  unfold vectorStep
  cases hb : buildVectorJob sr v with
  | none => exact hd
  | some j =>
    dsimp only
    by_cases hp : passesFilters j f = true
    · rw [if_pos hp]
      apply scoreSet01_dictSet d _ _ hd
      have hsc := (buildVectorJob_props sr v j hb).2
      refine ⟨by rw [hsc]; rfl, ?_, ?_⟩
      · rw [hsc]
        simpa using hv.1
      · rw [hsc]
        simpa using hv.2
    · rw [if_neg hp]
      exact hd

lemma scores_scyllaStep (f : ParsedFilters) (d : JobDict) (sj : ScyllaJob)
    (hd : ∀ p ∈ d, scoreSet01 p.2) :
    ∀ p ∈ scyllaStep f d sj, scoreSet01 p.2 := by
  unfold scyllaStep
  by_cases hm : dictMem d sj.job_id = true
  · rw [if_pos hm]
    exact hd
  · rw [if_neg hm]
    cases hc : createJobFromData sj (calculateTextSimilarityScore sj f) with
    | none => exact hd
    | some j =>
      dsimp only
      by_cases hp : passesFilters j f = true
      · rw [if_pos hp]
        apply scoreSet01_dictSet d _ _ hd
        have hsc := (createJobFromData_props sj _ j hc).2
        have hb := calcScore_bounds sj f
        refine ⟨by rw [hsc]; rfl, ?_, ?_⟩
        · rw [hsc]
          simp only [Option.getD_some]
          linarith [hb.1]
        · rw [hsc]
          simpa using hb.2
      · rw [if_neg hp]
        exact hd

lemma scores_foldl_vector (sr : List ScyllaJob) (f : ParsedFilters) :
    ∀ (vr : List VectorResult),
      (∀ v ∈ vr, 0 ≤ v.match_score ∧ v.match_score ≤ 1) →
      ∀ d, (∀ p ∈ d, scoreSet01 p.2) →
      ∀ p ∈ vr.foldl (vectorStep sr f) d, scoreSet01 p.2 := by
  intro vr
  induction vr with
  | nil => intro _ d hd; exact hd
  | cons v rest ih =>
    intro hvr d hd
    exact ih (fun w hw => hvr w (List.mem_cons_of_mem _ hw)) _
      (scores_vectorStep sr f d v hd (hvr v (List.mem_cons_self _ _)))

lemma scores_foldl_scylla (f : ParsedFilters) :
    ∀ (sr : List ScyllaJob) (d : JobDict), (∀ p ∈ d, scoreSet01 p.2) →
      ∀ p ∈ sr.foldl (scyllaStep f) d, scoreSet01 p.2 := by
  intro sr
  induction sr with
  | nil => intro d hd; exact hd
  | cons sj rest ih =>
    intro d hd
    exact ih _ (scores_scyllaStep f d sj hd)

/-- C6: given vector similarities in [0, 1], every job in a final fused
result set has its match score set and in [0, 1]. -/
theorem results_scores_set_in_unit (q : String) (f : ParsedFilters)
    (vr : List VectorResult) (sr : List ScyllaJob)
    (h : ∀ v ∈ vr, 0 ≤ v.match_score ∧ v.match_score ≤ 1) :
    ∀ j ∈ (searchJobs q f vr sr).results, scoreSet01 j := by
  intro j hj
  have hj1 : j ∈ mergeAndRankResults vr sr f := by
    have hj' : j ∈ (mergeAndRankResults vr sr f).take MAX_FINAL_RESULTS := hj
    exact (List.take_sublist _ _).mem hj'
  have hj2 : j ∈ (mergedDict vr sr f).map (fun p => p.2) :=
    (List.perm_insertionSort jobOrder _).mem_iff.mp hj1
  rcases List.mem_map.mp hj2 with ⟨p, hp, rfl⟩
  have hbase : ∀ p ∈ processVector vr sr f, scoreSet01 p.2 :=
    scores_foldl_vector sr f vr h [] (by intro p hp0; simp at hp0)
  exact scores_foldl_scylla f sr _ hbase p hp

/-- C6 (witness): the theorem applied to a one-candidate vector list with
similarity 1. -/
theorem results_scores_set_in_unit_witness :
    (∀ v ∈ [({ job_id := 1, match_score := 1 } : VectorResult)],
        0 ≤ v.match_score ∧ v.match_score ≤ 1)
    ∧ ∀ j ∈ (searchJobs "python" {} [{ job_id := 1, match_score := 1 }] []).results,
        scoreSet01 j := by
  have hhyp : ∀ v ∈ [({ job_id := 1, match_score := 1 } : VectorResult)],
      0 ≤ v.match_score ∧ v.match_score ≤ 1 := by
    intro v hv
    rw [List.mem_singleton] at hv
    subst hv
    constructor <;> norm_num
  exact ⟨hhyp, results_scores_set_in_unit "python" {} _ [] hhyp⟩

/-! ### C4: replacement behavior of the two fusion passes -/

lemma scyllaStep_preserve (f : ParsedFilters) (d : JobDict) (sj : ScyllaJob)
    (k : Nat) (hk : dictMem d k = true) :
    dictGet (scyllaStep f d sj) k = dictGet d k
    ∧ dictMem (scyllaStep f d sj) k = true := by
  unfold scyllaStep
  by_cases hm : dictMem d sj.job_id = true
  · rw [if_pos hm]
    exact ⟨rfl, hk⟩
  · rw [if_neg hm]
    cases hc : createJobFromData sj (calculateTextSimilarityScore sj f) with
    | none => exact ⟨rfl, hk⟩
    | some j =>
      dsimp only
      by_cases hp : passesFilters j f = true
      · rw [if_pos hp]
        have hne : k ≠ sj.job_id := by
          intro he
          exact hm (he ▸ hk)
        exact ⟨dictGet_dictSet_ne d sj.job_id j k hne,
          dictMem_dictSet_of_mem d sj.job_id j k hk⟩
      · rw [if_neg hp]
        exact ⟨rfl, hk⟩

lemma addScyllaOnly_preserves (f : ParsedFilters) :
    ∀ (sr : List ScyllaJob) (d0 : JobDict) (k : Nat), dictMem d0 k = true →
      dictGet (sr.foldl (scyllaStep f) d0) k = dictGet d0 k := by
  intro sr
  induction sr with
  | nil => intro d0 k _; rfl
  | cons sj rest ih =>
    intro d0 k hk
    have hstep := scyllaStep_preserve f d0 sj k hk
    rw [List.foldl_cons, ih _ k hstep.2, hstep.1]

/-- C4 (amended): the structured-only pass never replaces an already-accepted
job_id, but within the vector pass the *last* passing candidate for a job_id
wins — a later passing vector duplicate overwrites the earlier accepted
job. -/
theorem fusion_acceptance_behavior :
    (∀ (sr : List ScyllaJob) (f : ParsedFilters) (vrs : List VectorResult)
        (c : VectorResult) (j : Job),
        buildVectorJob sr c = some j → passesFilters j f = true →
        dictGet (processVector (vrs ++ [c]) sr f) c.job_id = some j)
    ∧ ∀ (d0 : JobDict) (sr : List ScyllaJob) (f : ParsedFilters) (k : Nat),
        dictMem d0 k = true →
        dictGet (addScyllaOnly d0 sr f) k = dictGet d0 k := by
  constructor
  · intro sr f vrs c j hb hp
    unfold processVector
    rw [List.foldl_concat]
    show dictGet (vectorStep sr f (List.foldl (vectorStep sr f) [] vrs) c) c.job_id
      = some j
    unfold vectorStep
    rw [hb]
    dsimp only
    rw [if_pos hp]
    exact dictGet_dictSet_self _ _ _
  · intro d0 sr f k h
    exact addScyllaOnly_preserves f sr d0 k h

/-- C4 (witness): the amended theorem applied to a singleton vector pass and
to a one-entry dict left untouched by an empty structured pass. -/
theorem fusion_acceptance_behavior_witness :
    dictGet
        (processVector ([] ++ [{ job_id := 3, match_score := 1 }]) [] {})
        ({ job_id := 3, match_score := 1 } : VectorResult).job_id
      = some { job_id := 3, title := "", match_score := some 1 }
    ∧ dictGet (addScyllaOnly [(5, { job_id := 5, title := "t" })] [] {}) 5
      = dictGet [(5, { job_id := 5, title := "t" })] 5 := by
  constructor
  · exact fusion_acceptance_behavior.1 [] {} [] _ _ rfl (by decide)
  · exact fusion_acceptance_behavior.2 _ [] {} 5 (by decide)

/-- C4 (counterexample): two passing vector candidates share job_id 7 with
scores 1 and 0; the claim's first-wins rule predicts a final score of 1, but
the code keeps the later candidate's score 0. -/
theorem vector_duplicate_overwrites_counterexample :
    (mergeAndRankResults
        [{ job_id := 7, match_score := 1 }, { job_id := 7, match_score := 0 }]
        [] {}).map (fun j => j.match_score)
      = [some 0]
    ∧ some (0 : ℚ) ≠ some (1 : ℚ) := by
  constructor
  · rfl
  · simp

/-! ### C5: the filter predicate rejects only with justification -/

lemma rejectSalaryMin_just (f j : Option Int) (h : rejectSalaryMin f j = true) :
    ∃ fv jv, f = some fv ∧ j = some jv ∧ jv < fv := by
  cases f with
  | none => simp [rejectSalaryMin] at h
  | some fv =>
    cases j with
    | none => simp [rejectSalaryMin] at h
    | some jv =>
      simp only [rejectSalaryMin, Bool.and_eq_true, bne_iff_ne, decide_eq_true_eq] at h
      exact ⟨fv, jv, rfl, rfl, h.2⟩

lemma rejectSalaryMax_just (f j : Option Int) (h : rejectSalaryMax f j = true) :
    ∃ fv jv, f = some fv ∧ j = some jv ∧ jv > fv := by
  cases f with
  | none => simp [rejectSalaryMax] at h
  | some fv =>
    cases j with
    | none => simp [rejectSalaryMax] at h
    | some jv =>
      simp only [rejectSalaryMax, Bool.and_eq_true, bne_iff_ne, decide_eq_true_eq] at h
      exact ⟨fv, jv, rfl, rfl, h.2⟩

lemma rejectCaseStr_just (f j : Option String) (h : rejectCaseStr f j = true) :
    ∃ fv jv, f = some fv ∧ j = some jv ∧ lowerStr fv ≠ lowerStr jv := by
  cases f with
  | none => simp [rejectCaseStr] at h
  | some fv =>
    cases j with
    | none => simp [rejectCaseStr] at h
    | some jv =>
      simp only [rejectCaseStr, Bool.and_eq_true, bne_iff_ne] at h
      exact ⟨fv, jv, rfl, rfl, h.2⟩

lemma rejectSkills_just (fs js : List String) (h : rejectSkills fs js = true) :
    fs ≠ [] ∧ js ≠ [] ∧ ∀ s ∈ js, ∀ t ∈ fs, lowerStr s ≠ lowerStr t := by
  simp only [rejectSkills, Bool.and_eq_true, Bool.not_eq_true'] at h
  obtain ⟨⟨hf, hj⟩, hany⟩ := h
  refine ⟨?_, ?_, ?_⟩
  · intro hc
    subst hc
    simp at hf
  · intro hc
    subst hc
    simp at hj
  · intro s hs t ht heq
    have hall : ∀ x ∈ js, ∀ y ∈ fs, ¬lowerStr y = lowerStr x := by
      simpa using hany
    exact hall s hs t ht heq.symm

/-- C5: the fusion filter predicate rejects a job only when some filter field
is specified, the job's corresponding field is present, and the two disagree
— absent job data never causes rejection. -/
theorem passesFilters_reject_only_justified (j : Job) (f : ParsedFilters)
    (h : passesFilters j f = false) : rejectionJustified j f := by
  by_cases h1 : rejectSalaryMin f.salary_min j.salary_min = true
  · exact Or.inl (rejectSalaryMin_just _ _ h1)
  by_cases h2 : rejectSalaryMax f.salary_max j.salary_max = true
  · exact Or.inr (Or.inl (rejectSalaryMax_just _ _ h2))
  by_cases h3 : rejectSkills f.skills j.skills = true
  · exact Or.inr (Or.inr (Or.inl (rejectSkills_just _ _ h3)))
  by_cases h4 : rejectCaseStr f.location j.city = true
  · exact Or.inr (Or.inr (Or.inr (Or.inl (rejectCaseStr_just _ _ h4))))
  by_cases h5 : rejectCaseStr f.employment_type j.employment_type = true
  · exact Or.inr (Or.inr (Or.inr (Or.inr (Or.inl (rejectCaseStr_just _ _ h5)))))
  by_cases h6 : rejectCaseStr f.experience_level j.experience_level = true
  · exact Or.inr (Or.inr (Or.inr (Or.inr (Or.inr (Or.inl
      (rejectCaseStr_just _ _ h6))))))
  by_cases h7 : rejectCaseStr f.category j.category = true
  · exact Or.inr (Or.inr (Or.inr (Or.inr (Or.inr (Or.inr
      (rejectCaseStr_just _ _ h7))))))
  · exfalso
    simp only [Bool.not_eq_true] at h1 h2 h3 h4 h5 h6 h7
    rw [passesFilters, h1, h2, h3, h4, h5, h6, h7] at h
    simp at h

/-- C5 (witness): a job offering less than the requested minimum salary is
rejected, with the rejection justified by the salary_min disagreement. -/
theorem passesFilters_reject_witness :
    passesFilters { job_id := 1, title := "x", salary_min := some 40000 }
        { salary_min := some 50000 } = false
    ∧ rejectionJustified { job_id := 1, title := "x", salary_min := some 40000 }
        { salary_min := some 50000 } :=
  ⟨by decide, passesFilters_reject_only_justified _ _ (by decide)⟩

/-! ### C7: case sensitivity of the two skill comparisons -/

/-- C7 (counterexample): with filter skills `["python"]`, a job whose skills
are `["Python"]` passes the fusion predicate but is rejected by the
structured store's post-query skill filter — the latter compares
case-sensitively. -/
theorem scylla_skill_case_counterexample :
    scyllaFilterJobs
        [{ job_id := 1, title := some "Dev", status := some "active",
           skills := some ["Python"] }]
        { skills := ["python"] } 100
      = []
    ∧ passesFilters { job_id := 1, title := "Dev", skills := ["Python"] }
        { skills := ["python"] } = true := by
  constructor
  · decide
  · decide

/-- C7 (amended): the fusion filter predicate's skill comparison is
case-insensitive — any case-insensitive overlap prevents rejection — while
the structured store's post-query skill filter is case-sensitive: with both
sides truthy it rejects whenever no *exact* string is shared, regardless of
case-insensitive overlap. -/
theorem skill_comparison_case_sensitivity :
    (∀ (fs js : List String),
        (∃ s ∈ js, ∃ t ∈ fs, lowerStr s = lowerStr t) →
        rejectSkills fs js = false)
    ∧ ∀ (fs : List String) (js : Option (List String)),
        fs ≠ [] → truthyOptList js = true →
        (∀ s ∈ js.getD [], s ∉ fs) →
        scyllaSkillReject fs js = true := by
  constructor
  · rintro fs js ⟨s, hs, t, ht, heq⟩
    unfold rejectSkills
    have hany : (js.map lowerStr).any (fun x => (fs.map lowerStr).contains x) = true := by
      rw [List.any_eq_true]
      refine ⟨lowerStr s, List.mem_map_of_mem _ hs, ?_⟩
      have : lowerStr s ∈ fs.map lowerStr := heq ▸ List.mem_map_of_mem lowerStr ht
      simpa using this
    rw [hany]
    simp
  · intro fs js hfs hjs hnone
    unfold scyllaSkillReject
    have h1 : (!fs.isEmpty) = true := by
      cases fs with
      | nil => exact absurd rfl hfs
      | cons a l => simp
    have h2 : (js.getD []).any (fun s => fs.contains s) = false := by
      rw [List.any_eq_false]
      intro x hx
      simpa using hnone x hx
    rw [h1, hjs, h2]
    simp

/-- C7 (witness): the amended theorem applied at `["python"]` vs
`["Python"]`. -/
theorem skill_comparison_case_sensitivity_witness :
    rejectSkills ["python"] ["Python"] = false
    ∧ scyllaSkillReject ["python"] (some ["Python"]) = true := by
  constructor
  · exact skill_comparison_case_sensitivity.1 ["python"] ["Python"]
      ⟨"Python", by simp, "python", by simp, by decide⟩
  · exact skill_comparison_case_sensitivity.2 ["python"] (some ["Python"])
      (by decide) (by decide) (by decide)

/-! ### C8: fixed fields of the rule-based parser -/

/-- C8 (counterexample): the rule-based parser never sets `original_query`;
on input `"python"` it is absent, not the verbatim input text. -/
theorem parser_original_query_counterexample :
    (parseQueryRuleBased "python").original_query = none
    ∧ (none : Option String) ≠ some "python" := by
  constructor
  · rfl
  · simp

/-- C8 (amended): for every input the rule-based parser returns status
"active", intent "job_search", `detected_language` absent, and
`original_query` absent (it is never populated with the input text). -/
theorem parser_fixed_fields (q : String) :
    (parseQueryRuleBased q).status = some "active"
    ∧ (parseQueryRuleBased q).intent = some "job_search"
    ∧ (parseQueryRuleBased q).original_query = none
    ∧ (parseQueryRuleBased q).detected_language = none :=
  ⟨rfl, rfl, rfl, rfl⟩

/-! ### C9: the salary extraction -/

/-- C9: the salary extraction refines its specification — the first matching
pattern of the fixed ordered list wins, a `k` anywhere in the matched span
multiplies each captured number by 1000, two captures populate
`salary_min`/`salary_max` as the smaller/larger value (so min ≤ max whenever
both are present), and a single capture populates `salary_min` only. -/
theorem salary_extraction_spec (cs : List Char) :
    extractSalary cs = specSalaryExtract cs
    ∧ (∀ (i : Fin 5) (m : SalaryMatch),
        (∀ j : Fin 5, j < i → salaryPattern j cs = none) →
        salaryPattern i cs = some m →
        salarySearch cs = some m)
    ∧ ∀ a b : Int, extractSalary cs = (some a, some b) → a ≤ b := by
  refine ⟨?_, ?_, ?_⟩
  · unfold extractSalary specSalaryExtract
    cases hs : salarySearch cs with
    | none => rfl
    | some m =>
      dsimp only
      cases hg : m.g2 with
      | none =>
        by_cases hk : m.span.contains 'k' = true
        · simp [hk]
        · simp [hk]
      | some w =>
        by_cases hk : m.span.contains 'k' = true
        · simp [hk, Nat.cast_min, Nat.cast_max]
        · simp [hk, Nat.cast_min, Nat.cast_max]
  · intro i m hprev hm
    obtain ⟨iv, hi⟩ := i
    interval_cases iv
    · dsimp only [salaryPattern] at hm
      unfold salarySearch
      rw [hm]
    · have h0 := hprev ⟨0, by omega⟩ (by exact Fin.mk_lt_mk.mpr (by omega))
      dsimp only [salaryPattern] at h0 hm
      unfold salarySearch
      rw [h0, hm]
    · have h0 := hprev ⟨0, by omega⟩ (by exact Fin.mk_lt_mk.mpr (by omega))
      have h1 := hprev ⟨1, by omega⟩ (by exact Fin.mk_lt_mk.mpr (by omega))
      dsimp only [salaryPattern] at h0 h1 hm
      unfold salarySearch
      rw [h0, h1, hm]
    · have h0 := hprev ⟨0, by omega⟩ (by exact Fin.mk_lt_mk.mpr (by omega))
      have h1 := hprev ⟨1, by omega⟩ (by exact Fin.mk_lt_mk.mpr (by omega))
      have h2 := hprev ⟨2, by omega⟩ (by exact Fin.mk_lt_mk.mpr (by omega))
      dsimp only [salaryPattern] at h0 h1 h2 hm
      unfold salarySearch
      rw [h0, h1, h2, hm]
    · have h0 := hprev ⟨0, by omega⟩ (by exact Fin.mk_lt_mk.mpr (by omega))
      have h1 := hprev ⟨1, by omega⟩ (by exact Fin.mk_lt_mk.mpr (by omega))
      have h2 := hprev ⟨2, by omega⟩ (by exact Fin.mk_lt_mk.mpr (by omega))
      have h3 := hprev ⟨3, by omega⟩ (by exact Fin.mk_lt_mk.mpr (by omega))
      dsimp only [salaryPattern] at h0 h1 h2 h3 hm
      unfold salarySearch
      rw [h0, h1, h2, h3, hm]
  · intro a b hab
    unfold extractSalary at hab
    cases hs : salarySearch cs with
    | none => rw [hs] at hab; simp at hab
    | some m =>
      rw [hs] at hab
      dsimp only at hab
      cases hg : m.g2 with
      | none => rw [hg] at hab; simp at hab
      | some w =>
        rw [hg] at hab
        dsimp only at hab
        rw [Prod.mk.injEq, Option.some.injEq, Option.some.injEq] at hab
        rw [← hab.1, ← hab.2]
        exact min_le_max

/-- C9 (witness): the theorem applied to `"40k-60k"`, where the first pattern
matches with captures 40 and 60 and the extraction yields
(40000, 60000). -/
theorem salary_extraction_spec_witness :
    extractSalary ("40k-60k".toList) = specSalaryExtract ("40k-60k".toList)
    ∧ salarySearch ("40k-60k".toList)
        = some { span := "40k-60k".toList, g1 := 40, g2 := some 60 }
    ∧ (40000 : Int) ≤ 60000 := by
  refine ⟨(salary_extraction_spec _).1, ?_, ?_⟩
  · exact (salary_extraction_spec _).2.1 0 _
      (fun j hj => absurd (by simpa using Fin.lt_def.mp hj) (Nat.not_lt_zero j.val))
      (by decide)
  · exact (salary_extraction_spec ("40k-60k".toList)).2.2 40000 60000 (by decide)

end JobSearch

